import Mathlib

/-!
# Verification of the job_analyzer acquisition-and-normalization pipeline

Shallow embedding of the cleaning, scraping-merge, reconciliation, storage
and orchestration logic of the repository (`clean_data.py`, `scrape_kumari.py`,
`database.py`, `scheduler.py`), together with theorems settling the frozen
claims about the natural-language specification.

Missing raw values (pandas `NaN` / Python non-`str` inputs) are modelled as
`none : Option String`; float salary values are modelled as exact rationals
(every value the code produces on the claimed inputs is integral, so this is
faithful).
-/

namespace JobAnalyzer

/-! ## Python string primitives (ASCII fragment exercised by the repository) -/

/-- Whitespace characters recognised by Python `str.strip()` (ASCII range). -/
def isPySpace (c : Char) : Bool :=
  c == ' ' || c == '\t' || c == '\n' || c == '\r' || c == '\x0b' || c == '\x0c'

/-- Drop leading Python whitespace from a character list. -/
def dropLeading : List Char → List Char
  | [] => []
  | c :: t => if isPySpace c then dropLeading t else c :: t

/-- Python `str.strip()`. -/
def pyStrip (s : String) : String :=
  ((dropLeading ((dropLeading s.toList).reverse)).reverse).asString

/-- Python `str.lower()` (ASCII). -/
def pyLower (s : String) : String :=
  (s.toList.map Char.toLower).asString

/-- ASCII cased character, the fragment of Python "cased" relevant here. -/
def isAsciiLetter (c : Char) : Bool :=
  ('a' ≤ c && c ≤ 'z') || ('A' ≤ c && c ≤ 'Z')

/-- Worker for Python `str.title()`: the boolean records whether the previous
character was cased. -/
def titleGo : Bool → List Char → List Char
  | _, [] => []
  | prevCased, c :: t =>
    (if isAsciiLetter c then (if prevCased then c.toLower else c.toUpper) else c)
      :: titleGo (isAsciiLetter c) t

/-- Python `str.title()` (ASCII). -/
def pyTitle (s : String) : String :=
  (titleGo false s.toList).asString

/-- `beginsWith needle hay`: `needle` is an initial segment of `hay`. -/
def beginsWith : List Char → List Char → Bool
  | [], _ => true
  | _ :: _, [] => false
  | a :: as, b :: bs => a == b && beginsWith as bs

/-- `hasSub needle hay`: `needle` occurs contiguously inside `hay`. -/
def hasSub (needle : List Char) : List Char → Bool
  | [] => needle.isEmpty
  | c :: t => beginsWith needle (c :: t) || hasSub needle t

/-- Python substring containment `needle in hay`. -/
def strIn (needle hay : String) : Bool :=
  hasSub needle.toList hay.toList

/-- Last element of a list, or the default when the list is empty. -/
def lastD (l : List α) (d : α) : α :=
  match l with
  | [] => d
  | c :: t => lastD t c

/-! ## Salary parsing — `clean_data.py`, `extract_salary_min` / `extract_salary_max` -/

/-- A character matched by the regex class `[\d,]`. -/
def isNumC (c : Char) : Bool := c.isDigit || c == ','

/-- Worker for `re.findall` of `[\d,]+`: `cur` is the (reversed) run being
accumulated. -/
def numRunsGo (cur : List Char) : List Char → List (List Char)
  | [] => if cur.isEmpty then [] else [cur.reverse]
  | c :: t =>
    if isNumC c then numRunsGo (c :: cur) t
    else if cur.isEmpty then numRunsGo [] t
    else cur.reverse :: numRunsGo [] t

/-- `re.findall(r'[\d,]+', s)`: the maximal runs of digits-and-commas, in order. -/
def numRuns (l : List Char) : List (List Char) := numRunsGo [] l

/-- Value of a digit string. -/
def digitsToNat (l : List Char) : Nat :=
  l.foldl (fun n c => 10 * n + (c.toNat - 48)) 0

/-- Python `float(x)` on a string of digits: `ValueError` (hence `None` at the
call sites) when empty, the numeric value otherwise. -/
def pyFloatDigits (l : List Char) : Option ℚ :=
  if l.isEmpty then none else some (digitsToNat l)

/-- `x.replace(',', '')` on a run. -/
def stripCommas (l : List Char) : List Char :=
  l.filter (fun c => !(c == ','))

/-- `clean_data.extract_salary_min`: first digits-and-commas run, commas
stripped, parsed as a number; `None` for non-string input, no run, or a
malformed (comma-only) run. -/
def extract_salary_min (s : Option String) : Option ℚ :=
  match s with
  | none => none
  | some str =>
    match numRuns str.toList with
    | [] => none
    | r :: _ => pyFloatDigits (stripCommas r)

/-- `clean_data.extract_salary_max`: second digits-and-commas run when present. -/
def extract_salary_max (s : Option String) : Option ℚ :=
  match s with
  | none => none
  | some str =>
    match (numRuns str.toList)[1]? with
    | some r => pyFloatDigits (stripCommas r)
    | none => none

/-! ## Job-level classification — `clean_data.py`, `standardize_job_level` -/

/-- Keywords of the "Entry Level" group. -/
def entryWords : List String := ["entry", "junior", "fresher", "fresh", "graduate"]

/-- Keywords of the "Mid Level" group. -/
def midWords : List String := ["mid", "intermediate", "associate"]

/-- Keywords of the "Senior Level" group. -/
def seniorWords : List String := ["senior", "sr.", "lead", "principal"]

/-- Keywords of the "Management" group. -/
def mgmtWords : List String := ["manager", "head", "director", "vp", "chief", "ceo", "cto"]

/-- `any(w in level_lower for w in ws)`. -/
def anyWordIn (ws : List String) (l : String) : Bool :=
  ws.any (fun w => strIn w l)

/-- `clean_data.standardize_job_level`: keyword classification of a job-level
string, `none` standing for a pandas non-string (NaN) input. -/
def standardize_job_level (level : Option String) : String :=
  match level with
  | none => "Not Specified"
  | some s =>
    let l := pyLower s
    if anyWordIn entryWords l then "Entry Level"
    else if anyWordIn midWords l then "Mid Level"
    else if anyWordIn seniorWords l then "Senior Level"
    else if anyWordIn mgmtWords l then "Management"
    else if l = "n/a" ∨ l = "na" ∨ l = "" ∨ l = "not specified" then "Not Specified"
    else pyTitle (pyStrip s)

/-! ## Location normalization — `clean_data.py`, `clean_location` -/

/-- The abbreviation dictionary of `clean_location`, in source order. -/
def locationMapping : List (String × String) :=
  [("KTM", "Kathmandu"), ("Ktm", "Kathmandu"), ("ktm", "Kathmandu"),
   ("Kathmandu Valley", "Kathmandu"),
   ("PKR", "Pokhara"), ("PKR.", "Pokhara"), ("Pkr", "Pokhara"),
   ("BKT", "Bhaktapur"), ("Bkt", "Bhaktapur"),
   ("LLT", "Lalitpur"), ("Llt", "Lalitpur"), ("Patan", "Lalitpur"),
   ("BRT", "Birgunj"), ("BTW", "Butwal")]

/-- Python `dict.get(k, default)` over an association list. -/
def lookupMap (m : List (String × String)) (k : String) : Option String :=
  (m.find? (fun p => p.1 == k)).map Prod.snd

/-- `clean_data.clean_location`: strip, send empty and `n/a`-like values to
"Unknown", look the result up in the abbreviation dictionary, and otherwise
pass the stripped value through. -/
def clean_location (loc : Option String) : String :=
  match loc with
  | none => "Unknown"
  | some s =>
    let t := pyStrip s
    if t = "" ∨ pyLower t = "n/a" ∨ pyLower t = "na" ∨ pyLower t = "" then "Unknown"
    else
      match lookupMap locationMapping t with
      | some v => v
      | none => t

/-! ## Company normalization — `clean_data.py`, `clean_and_merge` lines 130/151 -/

/-- `mero['company'].str.strip().fillna('Unknown Company')` (and the identical
KumariJob line): strip each string value, then fill only the missing (NaN)
entries with "Unknown Company". -/
def clean_company (c : Option String) : String :=
  match c with
  | none => "Unknown Company"
  | some s => pyStrip s

/-! ## Card description scan — `scrape_kumari.py` lines 79–88 -/

/-- A list item classified as experience text: contains "Year" or "Fresher". -/
def expMatch (t : String) : Bool :=
  strIn "Year" t || strIn "Fresher" t

/-- A list item classified as salary text: contains "Nrs." or "Negotiable". -/
def salMatch (t : String) : Bool :=
  strIn "Nrs." t || strIn "Negotiable" t

/-- One iteration of the description-list loop: the accumulator is the pair
(experience, salary), both initialised to "N/A". -/
def scanDescStep (acc : String × String) (text : String) : String × String :=
  if expMatch text then (text, acc.2)
  else if salMatch text then (acc.1, text)
  else acc

/-- The full description-list scan of a card: returns (experience, salary). -/
def scanDescription (items : List String) : String × String :=
  items.foldl scanDescStep ("N/A", "N/A")

/-! ## Duplicate-card merge — `scrape_kumari.py` lines 90–106 -/

/-- A partial record of the KumariJob card extractor. -/
structure KJob where
  jobTitle : String
  company : String
  link : String
  salary : String
  experience : String
deriving DecidableEq

/-- The duplicate-id merge of `scrape_kumari_jobs`: when a card's id is
already in `jobs_map`, Company/Salary/Experience are filled from the new card
only where the current value is exactly "N/A" and the new value is not;
Job Title and Link always keep the current values. -/
def mergeKJob (current inc : KJob) : KJob :=
  { current with
    company := if current.company = "N/A" ∧ inc.company ≠ "N/A" then inc.company else current.company,
    salary := if current.salary = "N/A" ∧ inc.salary ≠ "N/A" then inc.salary else current.salary,
    experience := if current.experience = "N/A" ∧ inc.experience ≠ "N/A" then inc.experience else current.experience }

/-- Placeholder as the SPEC words it (for comparison against the source's
exact-"N/A" test): empty, whitespace-only, or a case-insensitive "N/A"/"na"
variant. -/
def specPlaceholder (s : String) : Bool :=
  pyStrip s == "" || pyLower s == "n/a" || pyLower s == "na"

/-! ## Cross-source reconciliation — `clean_data.py`, `clean_and_merge` lines 177–189 -/

/-- A row of the concatenated normalized table, restricted to the fields the
quality gates read. `title` is `none` for a pandas-missing title. -/
structure CRow where
  title : Option String
  company : String
  source : String
  salary_min : Option ℚ
  salary_max : Option ℚ
deriving DecidableEq

/-- The dedup key: the (`title`, `company`, `source`) triple. -/
def rowKey (r : CRow) : Option String × String × String :=
  (r.title, r.company, r.source)

/-- `df['title'].notna() & (df['title'].str.strip() != '') & (df['title'] != 'N/A')`. -/
def titleOk (t : Option String) : Bool :=
  match t with
  | none => false
  | some s => !(pyStrip s == "") && !(s == "N/A")

/-- Quality gate 1: drop rows with missing/blank/"N/A" title. -/
def dropNoTitle (rows : List CRow) : List CRow :=
  rows.filter (fun r => titleOk r.title)

/-- Worker for `drop_duplicates(subset=['title','company','source'])`:
`seen` is the set of keys already emitted. -/
def dedupGo (seen : List (Option String × String × String)) : List CRow → List CRow
  | [] => []
  | r :: t =>
    if rowKey r ∈ seen then dedupGo seen t
    else r :: dedupGo (rowKey r :: seen) t

/-- Quality gate 2: keep the first occurrence of each key, in list order. -/
def dedupKey (rows : List CRow) : List CRow := dedupGo [] rows

/-- Quality gate 3 on one value: `df.loc[df[c] > 10_000_000, c] = None`. -/
def capSalary (x : Option ℚ) : Option ℚ :=
  match x with
  | none => none
  | some v => if v > 10000000 then none else some v

/-- Quality gate 3 on one row: both salary fields capped independently. -/
def capRow (r : CRow) : CRow :=
  { r with salary_min := capSalary r.salary_min, salary_max := capSalary r.salary_max }

/-- The quality gates of `clean_and_merge` in source order: title filter,
then first-occurrence dedup, then outlier capping. -/
def reconcile (rows : List CRow) : List CRow :=
  (dedupKey (dropNoTitle rows)).map capRow

/-- Rows of `l` whose (`title`, `company`, `source`) triple is `k`. -/
def keyFilter (k : Option String × String × String) (l : List CRow) : List CRow :=
  l.filter (fun x => decide (rowKey x = k))

/-! ## Idempotent store writer — `database.py` -/

/-- A stored raw row: the natural key (native id, ingestion timestamp) plus
the remaining field values as text. -/
structure RawRow where
  nid : String
  ts : String
  fields : List String
deriving DecidableEq

/-- The natural key of a stored row. -/
def rawKey (r : RawRow) : String × String := (r.nid, r.ts)

/-- Whether some stored row carries the key. -/
def keyPresent (t : List RawRow) (k : String × String) : Bool :=
  t.any (fun x => decide (rawKey x = k))

/-- Modelled from the spec: the storage engine itself is outside `src/`
("treat it as a key-value table with insert-or-ignore semantics", §1) — this
is the table-level effect of the `INSERT OR IGNORE` statements issued by
`save_merojob_data` / `save_kumari_data` against a table whose primary key is
(native id, scraped_at): a row whose key is already present is silently
skipped, otherwise it is appended. -/
def insertOrIgnore (t : List RawRow) (r : RawRow) : List RawRow :=
  if keyPresent t (rawKey r) then t else t ++ [r]

/-- `database.save_merojob_data` (and, identically keyed, `save_kumari_data`):
every record of one batch is inserted-or-ignored with the single ingestion
timestamp `ts` of the run. -/
def save_merojob_data (t : List RawRow) (jobs : List (String × List String)) (ts : String) : List RawRow :=
  jobs.foldl (fun acc j => insertOrIgnore acc ⟨j.1, ts, j.2⟩) t

/-! ## Pipeline orchestration — `scheduler.py`, `full_pipeline` -/

/-- The per-run counts the scheduler reports. -/
structure PipelineReport where
  mero_count : Nat
  kumari_count : Nat
  clean_count : Nat
deriving DecidableEq

/-- A scraping stage run under the scheduler's `try/except`: an exception
(`Except.error`) is caught and yields the count 0. -/
def stage_count : Except String Nat → Nat
  | Except.ok n => n
  | Except.error _ => 0

/-- The cleaning stage run under `try/except`: on success the count is the
length of the cleaned table, on exception it is 0. -/
def clean_stage_count : Except String (List CRow) → Nat
  | Except.ok df => df.length
  | Except.error _ => 0

/-- `scrape_kumari.scrape_kumari_jobs`, outcome level (lines 177–186): on
success it returns `len(jobs_map)`; a `RequestException` or any other
exception is caught inside the function and 0 is returned. -/
def scrape_kumari_jobs (result : Except String (List (String × KJob))) : Nat :=
  match result with
  | Except.ok jobs_map => jobs_map.length
  | Except.error _ => 0

/-- `scheduler.full_pipeline`: the three stages run in sequence, each wrapped
in its own `try/except`, so every stage contributes a count no matter how the
others ended. -/
def full_pipeline (mero kumari : Except String Nat)
    (cleaned : Except String (List CRow)) : PipelineReport :=
  { mero_count := stage_count mero,
    kumari_count := stage_count kumari,
    clean_count := clean_stage_count cleaned }

/-! ## Helper lemmas -/

/-- The description-list fold computes, for each field, the last matching item
(the accumulator components standing for the values so far). -/
theorem scanDesc_foldl (items : List String) : ∀ e s : String,
    items.foldl scanDescStep (e, s) =
      (lastD (items.filter expMatch) e,
       lastD (items.filter (fun t => !expMatch t && salMatch t)) s) := by
  induction items with
  | nil => intro e s; rfl
  | cons x xs ih =>
    intro e s
    rw [List.foldl_cons]
    by_cases hx : expMatch x
    · have hstep : scanDescStep (e, s) x = (x, s) := by simp [scanDescStep, hx]
      rw [hstep, ih, List.filter_cons, List.filter_cons]
      simp [hx, lastD]
    · by_cases hs : salMatch x
      · have hstep : scanDescStep (e, s) x = (e, x) := by simp [scanDescStep, hx, hs]
        rw [hstep, ih, List.filter_cons, List.filter_cons]
        simp [hx, hs, lastD]
      · have hstep : scanDescStep (e, s) x = (e, s) := by simp [scanDescStep, hx, hs]
        rw [hstep, ih, List.filter_cons, List.filter_cons]
        simp [hx, hs]

/-- Unfolding `keyFilter` over a cons cell. -/
theorem keyFilter_cons (k : Option String × String × String) (x : CRow) (l : List CRow) :
    keyFilter k (x :: l) =
      if rowKey x = k then x :: keyFilter k l else keyFilter k l := by
  simp [keyFilter, List.filter_cons]

/-- Keys already emitted are never emitted again by the dedup worker. -/
theorem dedupGo_keyFilter_seen (l : List CRow) :
    ∀ (seen : List (Option String × String × String)) (k), k ∈ seen →
      keyFilter k (dedupGo seen l) = [] := by
  induction l with
  | nil => intro seen k _; rfl
  | cons r t ih =>
    intro seen k hk
    by_cases hr : rowKey r ∈ seen
    · simp only [dedupGo, if_pos hr]
      exact ih seen k hk
    · have hne : rowKey r ≠ k := fun he => hr (he ▸ hk)
      simp only [dedupGo, if_neg hr]
      rw [keyFilter_cons, if_neg hne]
      exact ih _ k (List.mem_cons_of_mem _ hk)

/-- For an unseen key, the dedup worker keeps exactly the first row carrying
it. -/
theorem dedupGo_keyFilter_unseen (l : List CRow) :
    ∀ (seen : List (Option String × String × String)) (k), k ∉ seen →
      keyFilter k (dedupGo seen l) = (keyFilter k l).take 1 := by
  induction l with
  | nil => intro seen k _; rfl
  | cons r t ih =>
    intro seen k hk
    by_cases hr : rowKey r ∈ seen
    · have hne : rowKey r ≠ k := fun he => hk (he ▸ hr)
      simp only [dedupGo, if_pos hr]
      rw [keyFilter_cons, if_neg hne]
      exact ih seen k hk
    · simp only [dedupGo, if_neg hr]
      by_cases he : rowKey r = k
      · rw [keyFilter_cons, if_pos he, keyFilter_cons, if_pos he]
        rw [dedupGo_keyFilter_seen t _ k (by rw [← he]; exact List.mem_cons_self _ _)]
        rfl
      · rw [keyFilter_cons, if_neg he, keyFilter_cons, if_neg he]
        refine ih _ k ?_
        intro hmem
        rcases List.mem_cons.mp hmem with h1 | h2
        · exact he h1.symm
        · exact hk h2

/-- Any value stored by the outlier cap is at most the threshold. -/
theorem capSalary_le (x : Option ℚ) (v : ℚ) (h : capSalary x = some v) :
    v ≤ 10000000 := by
  match x with
  | none => simp [capSalary] at h
  | some w =>
    by_cases hw : w > 10000000
    · simp [capSalary, hw] at h
    · simp [capSalary, hw] at h
      exact h ▸ le_of_not_lt hw

/-- After an insert-or-ignore of `r`, the key of `r` is present. -/
theorem keyPresent_insertOrIgnore_self (t : List RawRow) (r : RawRow) :
    keyPresent (insertOrIgnore t r) (rawKey r) = true := by
  unfold insertOrIgnore
  by_cases h : keyPresent t (rawKey r) = true
  · rw [if_pos h]; exact h
  · rw [if_neg h]
    simp [keyPresent, List.any_append, List.any_cons]

/-- Insert-or-ignore never removes a present key. -/
theorem keyPresent_insertOrIgnore_mono (t : List RawRow) (r : RawRow)
    (k : String × String) (h : keyPresent t k = true) :
    keyPresent (insertOrIgnore t r) k = true := by
  unfold insertOrIgnore
  by_cases hp : keyPresent t (rawKey r) = true
  · rw [if_pos hp]; exact h
  · rw [if_neg hp]
    simp only [keyPresent, List.any_append, Bool.or_eq_true]
    exact Or.inl h

/-- Saving a batch never removes a present key. -/
theorem keyPresent_save_mono (jobs : List (String × List String)) :
    ∀ (t : List RawRow) (ts : String) (k : String × String),
      keyPresent t k = true → keyPresent (save_merojob_data t jobs ts) k = true := by
  induction jobs with
  | nil => intro t ts k h; exact h
  | cons j jt ih =>
    intro t ts k h
    exact ih _ ts k (keyPresent_insertOrIgnore_mono t _ k h)

/-- Every record of a saved batch has its key present afterwards. -/
theorem keyPresent_save_of_mem (jobs : List (String × List String)) :
    ∀ (t : List RawRow) (ts : String) (j : String × List String), j ∈ jobs →
      keyPresent (save_merojob_data t jobs ts) (j.1, ts) = true := by
  induction jobs with
  | nil => intro t ts j hj; cases hj
  | cons j' jt ih =>
    intro t ts j hj
    rcases List.mem_cons.mp hj with h1 | h2
    · subst h1
      refine keyPresent_save_mono jt _ ts _ ?_
      simpa [rawKey] using keyPresent_insertOrIgnore_self t ⟨j.1, ts, j.2⟩
    · exact ih _ ts j h2

/-- Saving a batch whose keys are all present already changes nothing. -/
theorem save_eq_of_allPresent (jobs : List (String × List String)) :
    ∀ (t : List RawRow) (ts : String),
      (∀ j ∈ jobs, keyPresent t (j.1, ts) = true) →
      save_merojob_data t jobs ts = t := by
  induction jobs with
  | nil => intro t ts _; rfl
  | cons j jt ih =>
    intro t ts h
    have hj : keyPresent t (j.1, ts) = true := h j (List.mem_cons_self _ _)
    have hins : insertOrIgnore t ⟨j.1, ts, j.2⟩ = t := by
      unfold insertOrIgnore
      simp [rawKey, hj]
    show save_merojob_data (insertOrIgnore t ⟨j.1, ts, j.2⟩) jt ts = t
    rw [hins]
    exact ih t ts (fun x hx => h x (List.mem_cons_of_mem _ hx))

/-- A key carried by some filtered row is present. -/
theorem keyPresent_of_filter_ne_nil (t : List RawRow) (k : String × String)
    (h : t.filter (fun x => decide (rawKey x = k)) ≠ []) :
    keyPresent t k = true := by
  rcases List.exists_mem_of_ne_nil _ h with ⟨x, hx⟩
  rcases List.mem_filter.mp hx with ⟨hxt, hxk⟩
  simp only [keyPresent, List.any_eq_true]
  exact ⟨x, hxt, hxk⟩

/-! ## Claim theorems -/

/-- C1, counterexample: an empty raw company value does NOT become
"Unknown Company" — `fillna` runs after `str.strip` and only fills missing
(NaN) values, so the empty string survives; the spec's end-to-end scenario
with company `""` therefore does not yield "Unknown Company". -/
theorem c1_counterexample :
    clean_company (some "") = "" ∧ clean_company (some "") ≠ "Unknown Company" := by
  decide

/-- C1, amended: the normalized company field is the trimmed company string,
and only a missing (null) raw company becomes "Unknown Company"; an empty or
whitespace-only company trims to the empty string and stays that way, so the
end-to-end scenario with company `""` yields company `""`. -/
theorem c1_company_amended :
    clean_company none = "Unknown Company" ∧
    (∀ s : String, clean_company (some s) = pyStrip s) ∧
    clean_company (some "  TechCorp Pvt. Ltd  ") = "TechCorp Pvt. Ltd" ∧
    clean_company (some "") = "" ∧
    clean_company (some "   ") = "" := by
  refine ⟨rfl, fun s => rfl, by decide, by decide, by decide⟩

/-- C2, counterexample: with two experience-matching list items
["1 Year", "3 Years"], the extracted experience is the LAST matching item
"3 Years", not the first "1 Year" — the loop keeps overwriting without a
break. -/
theorem c2_counterexample :
    expMatch "1 Year" = true ∧ expMatch "3 Years" = true ∧
    (scanDescription ["1 Year", "3 Years"]).1 = "3 Years" ∧
    (scanDescription ["1 Year", "3 Years"]).1 ≠ "1 Year" := by
  decide

/-- C2, amended: for every card description list, the extracted experience is
the LAST list item containing "Year" or "Fresher" (default "N/A"), and the
extracted salary is the LAST list item that contains "Nrs." or "Negotiable"
while not matching the experience keywords (default "N/A") — last match wins
per field per card. -/
theorem c2_scan_last_match (items : List String) :
    scanDescription items =
      (lastD (items.filter expMatch) "N/A",
       lastD (items.filter (fun t => !expMatch t && salMatch t)) "N/A") :=
  scanDesc_foldl items "N/A" "N/A"

/-- C3, counterexample: an existing Company value `""` is a placeholder in
the spec's sense (empty) while the incoming "Acme" is not, yet the merge does
NOT overwrite — the code compares against the literal "N/A" only. -/
theorem c3_counterexample :
    specPlaceholder "" = true ∧ specPlaceholder "Acme" = false ∧
    (mergeKJob ⟨"Dev", "", "lnk", "N/A", "N/A"⟩ ⟨"Dev", "Acme", "lnk", "N/A", "N/A"⟩).company = "" ∧
    (mergeKJob ⟨"Dev", "", "lnk", "N/A", "N/A"⟩ ⟨"Dev", "Acme", "lnk", "N/A", "N/A"⟩).company ≠ "Acme" := by
  decide

/-- C3, amended: the duplicate-card merge fills only the Company, Salary and
Experience fields, and only when the existing value is exactly the literal
string "N/A" and the incoming value is not "N/A"; Job Title and Link always
keep the existing values, and any existing value other than the literal "N/A"
(including empty, whitespace-only, or case variants such as "n/a") is kept
regardless of incoming. -/
theorem c3_merge_amended (cur inc : KJob) :
    (mergeKJob cur inc).jobTitle = cur.jobTitle ∧
    (mergeKJob cur inc).link = cur.link ∧
    (cur.company = "N/A" → inc.company ≠ "N/A" → (mergeKJob cur inc).company = inc.company) ∧
    (cur.company ≠ "N/A" → (mergeKJob cur inc).company = cur.company) ∧
    (inc.company = "N/A" → (mergeKJob cur inc).company = cur.company) ∧
    (cur.salary = "N/A" → inc.salary ≠ "N/A" → (mergeKJob cur inc).salary = inc.salary) ∧
    (cur.salary ≠ "N/A" → (mergeKJob cur inc).salary = cur.salary) ∧
    (inc.salary = "N/A" → (mergeKJob cur inc).salary = cur.salary) ∧
    (cur.experience = "N/A" → inc.experience ≠ "N/A" → (mergeKJob cur inc).experience = inc.experience) ∧
    (cur.experience ≠ "N/A" → (mergeKJob cur inc).experience = cur.experience) ∧
    (inc.experience = "N/A" → (mergeKJob cur inc).experience = cur.experience) := by
  refine ⟨rfl, rfl, ?_, ?_, ?_, ?_, ?_, ?_, ?_, ?_, ?_⟩ <;>
    intro h1 <;> first
      | (intro h2; simp [mergeKJob, h1, h2])
      | simp [mergeKJob, h1]

/-- C3, witness for the amended merge rule at a concrete pair of cards. -/
theorem c3_witness :
    (mergeKJob ⟨"Dev", "N/A", "lnk", "N/A", "N/A"⟩
      ⟨"Other", "Acme", "lnk2", "N/A", "N/A"⟩).company = "Acme" :=
  (c3_merge_amended ⟨"Dev", "N/A", "lnk", "N/A", "N/A"⟩
    ⟨"Other", "Acme", "lnk2", "N/A", "N/A"⟩).2.2.1 rfl (by decide)

/-- C4: salary extraction takes the maximal runs of digits-and-commas in
order; the first run, commas stripped, is the minimum, the second (if any) is
the maximum, both are null when no run exists, and a malformed (comma-only)
run degrades to null; the spec's three examples compute as claimed. -/
theorem c4_salary_extraction :
    (∀ s : String, extract_salary_min (some s) =
      ((numRuns s.toList).head?).bind (fun r => pyFloatDigits (stripCommas r))) ∧
    (∀ s : String, extract_salary_max (some s) =
      ((numRuns s.toList)[1]?).bind (fun r => pyFloatDigits (stripCommas r))) ∧
    extract_salary_min (some "Nrs. 20,000 - 30,000") = some 20000 ∧
    extract_salary_max (some "Nrs. 20,000 - 30,000") = some 30000 ∧
    extract_salary_min (some "Negotiable") = none ∧
    extract_salary_max (some "Negotiable") = none ∧
    extract_salary_min (some "Nrs. 45,000") = some 45000 ∧
    extract_salary_max (some "Nrs. 45,000") = none ∧
    extract_salary_min (some "a,b") = none ∧
    extract_salary_max (some "1 and ,, only") = none := by
  refine ⟨?_, ?_, by decide⟩
  · intro s
    cases h : numRuns s.toList with
    | nil =>
      have h2 : numRuns s.data = [] := h
      simp [extract_salary_min, h2]
    | cons r t =>
      have h2 : numRuns s.data = r :: t := h
      simp [extract_salary_min, h2]
  · intro s
    cases h : (numRuns s.toList)[1]? with
    | none =>
      have h2 : (numRuns s.data)[1]? = none := h
      simp [extract_salary_max, h2]
    | some r =>
      have h2 : (numRuns s.data)[1]? = some r := h
      simp [extract_salary_max, h2]

/-- C5, counterexample: the whitespace-only level `" "` is a placeholder in
the spec's sense, yet it is classified as `""` (trimmed, title-cased
passthrough), not "Not Specified" — the placeholder test compares the
lowered value exactly, without stripping. -/
theorem c5_counterexample :
    specPlaceholder " " = true ∧
    standardize_job_level (some " ") = "" ∧
    standardize_job_level (some " ") ≠ "Not Specified" := by
  decide

/-- C5, amended: the keyword groups are checked in the stated priority order
with first group match winning; after all groups fail, "Not Specified" is
produced only when the lowered (unstripped) value is exactly "n/a", "na", ""
or "not specified" — a whitespace-only or padded placeholder instead falls
through to the trimmed, title-cased passthrough. The spec's four examples
hold. -/
theorem c5_job_level_amended :
    (∀ s, anyWordIn entryWords (pyLower s) = true →
      standardize_job_level (some s) = "Entry Level") ∧
    (∀ s, anyWordIn entryWords (pyLower s) = false →
      anyWordIn midWords (pyLower s) = true →
      standardize_job_level (some s) = "Mid Level") ∧
    (∀ s, anyWordIn entryWords (pyLower s) = false →
      anyWordIn midWords (pyLower s) = false →
      anyWordIn seniorWords (pyLower s) = true →
      standardize_job_level (some s) = "Senior Level") ∧
    (∀ s, anyWordIn entryWords (pyLower s) = false →
      anyWordIn midWords (pyLower s) = false →
      anyWordIn seniorWords (pyLower s) = false →
      anyWordIn mgmtWords (pyLower s) = true →
      standardize_job_level (some s) = "Management") ∧
    (∀ s, anyWordIn entryWords (pyLower s) = false →
      anyWordIn midWords (pyLower s) = false →
      anyWordIn seniorWords (pyLower s) = false →
      anyWordIn mgmtWords (pyLower s) = false →
      (pyLower s = "n/a" ∨ pyLower s = "na" ∨ pyLower s = "" ∨ pyLower s = "not specified") →
      standardize_job_level (some s) = "Not Specified") ∧
    (∀ s, anyWordIn entryWords (pyLower s) = false →
      anyWordIn midWords (pyLower s) = false →
      anyWordIn seniorWords (pyLower s) = false →
      anyWordIn mgmtWords (pyLower s) = false →
      ¬(pyLower s = "n/a" ∨ pyLower s = "na" ∨ pyLower s = "" ∨ pyLower s = "not specified") →
      standardize_job_level (some s) = pyTitle (pyStrip s)) ∧
    standardize_job_level (some "Senior Software Engineer") = "Senior Level" ∧
    standardize_job_level (some "Fresher / Entry") = "Entry Level" ∧
    standardize_job_level (some "Chief Operating Officer") = "Management" ∧
    standardize_job_level (some "Blockchain Specialist") = "Blockchain Specialist" ∧
    standardize_job_level none = "Not Specified" ∧
    standardize_job_level (some "N/A") = "Not Specified" ∧
    standardize_job_level (some "na") = "Not Specified" ∧
    standardize_job_level (some "") = "Not Specified" ∧
    standardize_job_level (some "not specified") = "Not Specified" ∧
    standardize_job_level (some " ") = "" := by
  refine ⟨?_, ?_, ?_, ?_, ?_, ?_, by decide⟩
  · intro s h1
    simp [standardize_job_level, h1]
  · intro s h1 h2
    simp [standardize_job_level, h1, h2]
  · intro s h1 h2 h3
    simp [standardize_job_level, h1, h2, h3]
  · intro s h1 h2 h3 h4
    simp [standardize_job_level, h1, h2, h3, h4]
  · intro s h1 h2 h3 h4 h5
    simp [standardize_job_level, h1, h2, h3, h4, h5]
  · intro s h1 h2 h3 h4 h5
    simp [standardize_job_level, h1, h2, h3, h4, h5]

/-- C5, witness for the amended classification, on an input exercising the
second (Mid Level) priority group with its hypotheses discharged. -/
theorem c5_witness :
    standardize_job_level (some "Associate Engineer") = "Mid Level" :=
  c5_job_level_amended.2.1 "Associate Engineer" (by decide) (by decide)

/-- C6, counterexample: the unmapped, non-placeholder value `" Biratnagar "`
does NOT pass through unchanged — `clean_location` strips it first, so the
output is "Biratnagar". -/
theorem c6_counterexample :
    lookupMap locationMapping " Biratnagar " = none ∧
    specPlaceholder " Biratnagar " = false ∧
    clean_location (some " Biratnagar ") = "Biratnagar" ∧
    clean_location (some " Biratnagar ") ≠ " Biratnagar " := by
  decide

/-- C6, amended: the location is stripped first; the stripped value is then
mapped through the fixed case-sensitive abbreviation dictionary, an unmapped
stripped value passes through in its STRIPPED form (not unchanged), and
missing/empty/placeholder values map to "Unknown"; the spec's four examples
hold. -/
theorem c6_location_amended :
    (∀ s v, ¬(pyStrip s = "" ∨ pyLower (pyStrip s) = "n/a" ∨
        pyLower (pyStrip s) = "na" ∨ pyLower (pyStrip s) = "") →
      lookupMap locationMapping (pyStrip s) = some v →
      clean_location (some s) = v) ∧
    (∀ s, ¬(pyStrip s = "" ∨ pyLower (pyStrip s) = "n/a" ∨
        pyLower (pyStrip s) = "na" ∨ pyLower (pyStrip s) = "") →
      lookupMap locationMapping (pyStrip s) = none →
      clean_location (some s) = pyStrip s) ∧
    clean_location none = "Unknown" ∧
    clean_location (some "") = "Unknown" ∧
    clean_location (some "   ") = "Unknown" ∧
    clean_location (some "N/A") = "Unknown" ∧
    clean_location (some " na ") = "Unknown" ∧
    clean_location (some "KTM") = "Kathmandu" ∧
    clean_location (some "ktm") = "Kathmandu" ∧
    clean_location (some "Kathmandu Valley") = "Kathmandu" ∧
    clean_location (some "PKR.") = "Pokhara" ∧
    clean_location (some "Pkr") = "Pokhara" ∧
    clean_location (some "Bkt") = "Bhaktapur" ∧
    clean_location (some "Llt") = "Lalitpur" ∧
    clean_location (some "Patan") = "Lalitpur" ∧
    clean_location (some "BRT") = "Birgunj" ∧
    clean_location (some "BTW") = "Butwal" ∧
    clean_location (some "Biratnagar") = "Biratnagar" := by
  refine ⟨?_, ?_, by decide⟩
  · intro s v hn hm
    simp [clean_location, hn, hm]
  · intro s hn hm
    simp [clean_location, hn, hm]

/-- C6, witness for the amended mapping rule at a concrete padded key. -/
theorem c6_witness :
    clean_location (some " BKT ") = "Bhaktapur" :=
  c6_location_amended.1 " BKT " "Bhaktapur" (by decide) (by decide)

/-- C7: the outlier cap nulls a salary field exactly when its value strictly
exceeds 10,000,000, leaves values at or below the threshold unchanged, acts
on the two fields of a row independently, and in the reconciled table every
present salary value is at most the threshold; 15,000,000 is nulled,
9,999,999 is untouched, and a row can have one field capped and the other
not. -/
theorem c7_outlier_cap :
    (∀ v : ℚ, 10000000 < v → capSalary (some v) = none) ∧
    (∀ v : ℚ, v ≤ 10000000 → capSalary (some v) = some v) ∧
    capSalary none = none ∧
    (∀ r : CRow, (capRow r).salary_min = capSalary r.salary_min ∧
      (capRow r).salary_max = capSalary r.salary_max ∧
      (capRow r).title = r.title ∧ (capRow r).company = r.company ∧
      (capRow r).source = r.source) ∧
    (∀ (rows : List CRow) (r : CRow), r ∈ reconcile rows →
      (∀ v : ℚ, r.salary_min = some v → v ≤ 10000000) ∧
      (∀ v : ℚ, r.salary_max = some v → v ≤ 10000000)) ∧
    capSalary (some 15000000) = none ∧
    capSalary (some 9999999) = some 9999999 ∧
    capRow ⟨some "T", "C", "merojob", some 15000000, some 9999999⟩ =
      ⟨some "T", "C", "merojob", none, some 9999999⟩ := by
  refine ⟨?_, ?_, rfl, ?_, ?_, by decide, by decide, by decide⟩
  · intro v hv
    simp [capSalary, hv]
  · intro v hv
    simp [capSalary, not_lt_of_le hv]
  · intro r
    exact ⟨rfl, rfl, rfl, rfl, rfl⟩
  · intro rows r hr
    rcases List.mem_map.mp hr with ⟨x, _, hx⟩
    subst hx
    exact ⟨fun v h => capSalary_le x.salary_min v h,
           fun v h => capSalary_le x.salary_max v h⟩

/-- C7, witness at concrete values for the threshold hypotheses. -/
theorem c7_witness :
    capSalary (some 10000001) = none ∧ capSalary (some 10000000) = some 10000000 :=
  ⟨c7_outlier_cap.1 10000001 (by norm_num), c7_outlier_cap.2.1 10000000 (by norm_num)⟩

/-- C8: in the table obtained by dropping missing/blank/"N/A" titles from the
concatenation (source A's rows, then source B's rows) and then deduplicating,
every (`title`, `company`, `source`) triple that survives the title filter is
carried by exactly one row, namely its first occurrence in concatenation
order. -/
theorem c8_dedup_first (a b : List CRow) (k : Option String × String × String)
    (r : CRow) (rest : List CRow)
    (h : keyFilter k (dropNoTitle (a ++ b)) = r :: rest) :
    keyFilter k (dedupKey (dropNoTitle (a ++ b))) = [r] := by
  rw [dedupKey, dedupGo_keyFilter_unseen _ [] k (List.not_mem_nil k), h]
  rfl

/-- C8, witness: a concrete concatenation with a cross-position duplicate and
a dropped blank-title row collapses to the first occurrence. -/
theorem c8_witness :
    keyFilter (some "Backend Developer", "Acme", "merojob")
      (dedupKey (dropNoTitle
        ([⟨some "Backend Developer", "Acme", "merojob", some 25000, none⟩,
          ⟨some "", "Acme", "merojob", none, none⟩] ++
         [⟨some "Backend Developer", "Acme", "merojob", none, some 35000⟩]))) =
      [⟨some "Backend Developer", "Acme", "merojob", some 25000, none⟩] :=
  c8_dedup_first
    [⟨some "Backend Developer", "Acme", "merojob", some 25000, none⟩,
     ⟨some "", "Acme", "merojob", none, none⟩]
    [⟨some "Backend Developer", "Acme", "merojob", none, some 35000⟩]
    (some "Backend Developer", "Acme", "merojob")
    ⟨some "Backend Developer", "Acme", "merojob", some 25000, none⟩
    [⟨some "Backend Developer", "Acme", "merojob", none, some 35000⟩]
    (by decide)

/-- C9: persisting a record whose natural key (native id, ingestion
timestamp) is already stored is a silent no-op that leaves the stored rows —
values included — unchanged, keeps exactly one row for that key when the
table had one, and persisting the same batch twice with the same timestamp
leaves the table of the first pass untouched. -/
theorem c9_store_idempotent :
    (∀ (t : List RawRow) (r : RawRow), keyPresent t (rawKey r) = true →
      insertOrIgnore t r = t) ∧
    (∀ (t : List RawRow) (r : RawRow),
      (t.filter (fun x => decide (rawKey x = rawKey r))).length = 1 →
      (insertOrIgnore t r).filter (fun x => decide (rawKey x = rawKey r)) =
        t.filter (fun x => decide (rawKey x = rawKey r))) ∧
    (∀ (t : List RawRow) (jobs : List (String × List String)) (ts : String),
      save_merojob_data (save_merojob_data t jobs ts) jobs ts =
        save_merojob_data t jobs ts) := by
  have hid : ∀ (t : List RawRow) (r : RawRow), keyPresent t (rawKey r) = true →
      insertOrIgnore t r = t := by
    intro t r h
    unfold insertOrIgnore
    rw [if_pos h]
  refine ⟨hid, ?_, ?_⟩
  · intro t r h
    have hne : t.filter (fun x => decide (rawKey x = rawKey r)) ≠ [] := by
      intro he
      rw [he] at h
      simp at h
    rw [hid t r (keyPresent_of_filter_ne_nil t (rawKey r) hne)]
  · intro t jobs ts
    exact save_eq_of_allPresent jobs _ ts
      (fun j hj => keyPresent_save_of_mem jobs t ts j hj)

/-- C9, witness: re-inserting a row with an already-stored key, even with
different field values, leaves the stored row unchanged. -/
theorem c9_witness :
    insertOrIgnore [⟨"42", "2026-01-05T09:00:00", ["Backend Developer", "Acme"]⟩]
      ⟨"42", "2026-01-05T09:00:00", ["Other Title", "Other Co"]⟩ =
      [⟨"42", "2026-01-05T09:00:00", ["Backend Developer", "Acme"]⟩] :=
  c9_store_idempotent.1
    [⟨"42", "2026-01-05T09:00:00", ["Backend Developer", "Acme"]⟩]
    ⟨"42", "2026-01-05T09:00:00", ["Other Title", "Other Co"]⟩
    (by decide)

/-- C10: a stage that raises (an `Except.error`, e.g. a network failure)
contributes the count 0 to the pipeline report instead of propagating, and
the other stages' counts are computed exactly as if the failing stage had
not failed — the KumariJob scraper additionally catches its own network
errors and returns 0 itself. -/
theorem c10_stage_isolation :
    (∀ (e : String) (k : Except String Nat) (c : Except String (List CRow)),
      full_pipeline (Except.error e) k c =
        ⟨0, stage_count k, clean_stage_count c⟩) ∧
    (∀ (m : Except String Nat) (e : String) (c : Except String (List CRow)),
      full_pipeline m (Except.error e) c =
        ⟨stage_count m, 0, clean_stage_count c⟩) ∧
    (∀ (m k : Except String Nat) (e : String),
      full_pipeline m k (Except.error e) =
        ⟨stage_count m, stage_count k, 0⟩) ∧
    (∀ e : String, scrape_kumari_jobs (Except.error e) = 0) ∧
    (∀ (jobs_map : List (String × KJob)),
      scrape_kumari_jobs (Except.ok jobs_map) = jobs_map.length) ∧
    (∀ n : Nat, stage_count (Except.ok n) = n) ∧
    (∀ df : List CRow, clean_stage_count (Except.ok df) = df.length) :=
  ⟨fun _ _ _ => rfl, fun _ _ _ => rfl, fun _ _ _ => rfl, fun _ => rfl,
   fun _ => rfl, fun _ => rfl, fun _ => rfl⟩

end JobAnalyzer
